import Mathlib

/-!
go-pokemon-api: domain model, HTTP facade and demo runner.

A shallow embedding of `src/poke_api/main.go` and `src/pokemon/main.go`.

* Go strings are modelled as Lean strings, i.e. sequences of Unicode code
  points; every metacharacter the programs look at is ASCII.
* A Go `(T, error)` result where the value is meaningless on error is an
  `Except GoError T`; `strconv.Atoi`, whose integer is read by the handlers
  even after an error, returns the pair.
* An `http.ResponseWriter` is the list of calls made on it, in order.
* A Go run-time panic (index out of range) is an explicit outcome.
-/

namespace GoPokemonApi

/-! ## Errors -/

/-- Go error values that occur in the two programs: `errors.New msg`, the
`*strconv.NumError` of `strconv.Atoi` (function name, offending input, cause)
and `path.ErrBadPattern`. -/
inductive GoError where
  | errorsNew (msg : String)
  | numError (func num cause : String)
  | errBadPattern
deriving DecidableEq

/-! ## Domain model (identical text in both programs) -/

/-- Go `type Move struct { Name string; Type string }`. The field `Type` is
spelled `Type_` because `Type` is reserved. -/
structure Move where
  Name : String
  Type_ : String
deriving DecidableEq

/-- Go `type Pokemon struct { ID int; Name string; moves []Move }`. -/
structure Pokemon where
  ID : Int
  Name : String
  moves : List Move
deriving DecidableEq

/-- Go `func (m Move) dynamax() (Move, error)`: a string switch on `m.Type`. -/
def Move.dynamax (m : Move) : Except GoError Move :=
  if m.Type_ = "くさ" then
    .ok { Name := "ダイソウゲン", Type_ := m.Type_ }
  else if m.Type_ = "ほのお" then
    .ok { Name := "ダイバーン", Type_ := m.Type_ }
  else if m.Type_ = "みず" then
    .ok { Name := "ダイストリーム", Type_ := m.Type_ }
  else
    .error (GoError.errorsNew "unknown type")

/-- The `for _, move := range p.moves` loop of `Moves`: the remaining moves and
the accumulator `dynamaxMoves`; the first failing `dynamax` returns its error
and drops the accumulator. -/
def Pokemon.movesLoop : List Move → List Move → Except GoError (List Move)
  | [], dynamaxMoves => .ok dynamaxMoves
  | move :: rest, dynamaxMoves =>
    match move.dynamax with
    | .error err => .error err
    | .ok dynMove => Pokemon.movesLoop rest (dynamaxMoves ++ [dynMove])

/-- Go `func (p Pokemon) Moves(isDynamax bool) ([]Move, error)`. -/
def Pokemon.Moves (p : Pokemon) (isDynamax : Bool) : Except GoError (List Move) :=
  if isDynamax then
    Pokemon.movesLoop p.moves []
  else
    .ok p.moves

/-- Go `var party = []Pokemon{...}`. -/
def party : List Pokemon :=
  [ { ID := 3, Name := "フシギバナ", moves := [{ Name := "つるのむち", Type_ := "くさ" }] },
    { ID := 6, Name := "リザードン", moves := [{ Name := "かえんほうしゃ", Type_ := "ほのお" }] },
    { ID := 9, Name := "カメックス", moves := [{ Name := "みずでっぽう", Type_ := "みず" }] } ]

/-- The three categories of the switch in `dynamax`. -/
def knownType (t : String) : Prop :=
  t = "くさ" ∨ t = "ほのお" ∨ t = "みず"

instance (t : String) : Decidable (knownType t) := by
  unfold knownType
  infer_instance

/-- A run-time panic of the Go runtime: `index out of range [index] with
length length`. -/
structure Panic where
  index : Int
  length : Nat
deriving DecidableEq

/-- Go slice indexing `xs[i]` with an `int` index: panics outside
`0 <= i < len(xs)`. -/
def sliceIndex {α : Type} (xs : List α) (i : Int) : Except Panic α :=
  if i < 0 then
    .error { index := i, length := xs.length }
  else
    match xs.get? i.toNat with
    | some x => .ok x
    | none => .error { index := i, length := xs.length }

/-! ## Library functions used by the HTTP facade -/

/-- Go `strings.Split(s, sep)` for a one-character separator, as at both call
sites (`"/"`): the pieces between the separators, one more than there are
separators. The second argument is the piece being read, reversed. -/
def stringsSplitLoop (sep : Char) : List Char → List Char → List String
  | [], cur => [String.mk cur.reverse]
  | c :: cs, cur =>
    if c = sep then
      String.mk cur.reverse :: stringsSplitLoop sep cs []
    else
      stringsSplitLoop sep cs (c :: cur)

/-- Go `strings.Split(s, "/")` with `sep` the separator character. -/
def stringsSplit (s : String) (sep : Char) : List String :=
  stringsSplitLoop sep s.data []

/-- Go `strconv.syntaxError(fn, str)`. -/
def numErrorInvalid (fn str : String) : GoError :=
  .numError fn str "invalid syntax"

/-- Go `strconv.rangeError(fn, str)`. -/
def numErrorRange (fn str : String) : GoError :=
  .numError fn str "value out of range"

/-- The digit loop of the fast path of `strconv.Atoi`: `none` at the first
byte that is not a decimal digit. -/
def atoiFastLoop : List Char → Nat → Option Nat
  | [], n => some n
  | ch :: rest, n =>
    if '0' ≤ ch ∧ ch ≤ '9' then
      atoiFastLoop rest (n * 10 + (ch.toNat - '0'.toNat))
    else
      none

/-- The digit loop of `strconv.ParseUint(s, 10, 64)`: the value read so far is
`n`; the result is the value and the kind of error (`some false` invalid
syntax, `some true` out of range), in the order the loop meets them. -/
def parseUintLoop : List Char → Nat → Nat × Option Bool
  | [], n => (n, none)
  | c :: rest, n =>
    if '0' ≤ c ∧ c ≤ '9' then
      if n ≥ (2 ^ 64 - 1) / 10 + 1 then
        (2 ^ 64 - 1, some true)
      else
        let n1 := n * 10 + (c.toNat - '0'.toNat)
        if n1 > 2 ^ 64 - 1 then
          (2 ^ 64 - 1, some true)
        else
          parseUintLoop rest n1
    else
      (0, some false)

/-- Go `strconv.ParseUint(s, 10, 64)`, value and error kind. -/
def parseUint (s : List Char) : Nat × Option Bool :=
  if s.isEmpty then (0, some false) else parseUintLoop s 0

/-- Go `strconv.ParseInt(s, 10, 0)` on a 64-bit platform, with the error
already renamed to `Atoi` as `strconv.Atoi` does. -/
def parseInt (s0 : String) : Int × Option GoError :=
  if s0.data.isEmpty then
    (0, some (numErrorInvalid "Atoi" s0))
  else
    let neg := s0.data.head? = some '-'
    let s := if s0.data.head? = some '+' ∨ s0.data.head? = some '-' then s0.data.tail else s0.data
    match parseUint s with
    | (_, some false) => (0, some (numErrorInvalid "Atoi" s0))
    | (un, _) =>
      if ¬ neg ∧ un ≥ 2 ^ 63 then
        (2 ^ 63 - 1, some (numErrorRange "Atoi" s0))
      else if neg ∧ un > 2 ^ 63 then
        (-(2 ^ 63), some (numErrorRange "Atoi" s0))
      else if neg then
        (-(un : Int), none)
      else
        ((un : Int), none)

/-- Go `strconv.Atoi(s)` on a 64-bit platform: the fast path for inputs of 1 to
18 bytes, `ParseInt` otherwise. The integer is returned next to the error,
since the handlers read it without looking at the error. -/
def Atoi (s0 : String) : Int × Option GoError :=
  if 0 < s0.utf8ByteSize ∧ s0.utf8ByteSize < 19 then
    let signed := s0.data.head? = some '-' ∨ s0.data.head? = some '+'
    let s := if signed then s0.data.tail else s0.data
    if signed ∧ s.length < 1 then
      (0, some (numErrorInvalid "Atoi" s0))
    else
      match atoiFastLoop s 0 with
      | none => (0, some (numErrorInvalid "Atoi" s0))
      | some n =>
        if s0.data.head? = some '-' then (-(n : Int), none) else ((n : Int), none)
  else
    parseInt s0

/-- The `..` case of `path.Clean` when `out.w > dotdot`: `out.w--`, then
`for out.w > dotdot && out.index(out.w) != '/' { out.w-- }`. The buffer is
held reversed, so its head is the byte at `out.w - 1`. -/
def cleanBacktrack (dotdot : Nat) : List Char → List Char
  | [] => []
  | c :: t => if t.length > dotdot ∧ c ≠ '/' then cleanBacktrack dotdot t else t

/-- The copy loop `for ; r < n && path[r] != '/'; r++ { out.append(path[r]) }`
of `path.Clean`: the unread input and the reversed buffer afterwards. -/
def cleanCopy : List Char → List Char → List Char × List Char
  | [], outRev => ([], outRev)
  | c :: t, outRev => if c = '/' then (c :: t, outRev) else cleanCopy t (c :: outRev)

/-- The main loop `for r < n` of `path.Clean`: `rest` is `path[r:]`, `outRev`
the written buffer reversed (`out.w` is its length), `dotdot` as in Go. Every
round reads at least one byte, so `fuel = len(path)` rounds suffice. -/
def cleanLoop (rooted : Bool) : Nat → List Char → List Char → Nat → List Char
  | 0, _, outRev, _ => outRev
  | fuel + 1, rest, outRev, dotdot =>
    match rest with
    | [] => outRev
    | c :: t =>
      if c = '/' then
        cleanLoop rooted fuel t outRev dotdot
      else if c = '.' ∧ (t.isEmpty ∨ t.head? = some '/') then
        cleanLoop rooted fuel t outRev dotdot
      else if c = '.' ∧ t.head? = some '.' ∧ (t.tail.isEmpty ∨ t.tail.head? = some '/') then
        if outRev.length > dotdot then
          cleanLoop rooted fuel t.tail (cleanBacktrack dotdot outRev) dotdot
        else if ¬ rooted then
          let out1 := if outRev.length > 0 then '/' :: outRev else outRev
          let out2 := '.' :: '.' :: out1
          cleanLoop rooted fuel t.tail out2 out2.length
        else
          cleanLoop rooted fuel t.tail outRev dotdot
      else
        let out1 :=
          if (rooted ∧ outRev.length ≠ 1) ∨ (¬ rooted ∧ outRev.length ≠ 0) then '/' :: outRev
          else outRev
        let (rest1, out2) := cleanCopy (c :: t) out1
        cleanLoop rooted fuel rest1 out2 dotdot

/-- Go `path.Clean(path)`. -/
def pathClean (path : String) : String :=
  if path.data.isEmpty then
    "."
  else
    let rooted := path.data.head? = some '/'
    let outRev :=
      if rooted then cleanLoop true path.data.length path.data.tail ['/'] 1
      else cleanLoop false path.data.length path.data [] 0
    if outRev.length = 0 then "." else String.mk outRev.reverse

/-- Go `path.getEsc(chunk)`: one possibly escaped character of a character
class and the rest of the chunk. -/
def getEsc (chunk : List Char) : Except GoError (Char × List Char) :=
  match chunk with
  | [] => .error .errBadPattern
  | c :: t =>
    if c = '-' ∨ c = ']' then
      .error .errBadPattern
    else
      match (if c = Char.ofNat 92 then t else c :: t) with
      | [] => .error .errBadPattern
      | r :: nchunk => if nchunk.isEmpty then .error .errBadPattern else .ok (r, nchunk)

/-- The `for` loop of `path.matchChunk` that parses the ranges of a character
class: `r` is the character to classify, `matched` and `nrange` as in Go; the
result is `match` and the chunk after the closing bracket. Every round reads
at least one character of the chunk. -/
def classLoop : Nat → List Char → Char → Bool → Nat → Except GoError (Bool × List Char)
  | 0, _, _, _, _ => .error .errBadPattern
  | fuel + 1, chunk, r, matched, nrange =>
    if chunk.head? = some ']' ∧ nrange > 0 then
      .ok (matched, chunk.tail)
    else
      match getEsc chunk with
      | .error e => .error e
      | .ok (lo, chunk1) =>
        if chunk1.head? = some '-' then
          match getEsc chunk1.tail with
          | .error e => .error e
          | .ok (hi, chunk2) =>
            classLoop fuel chunk2 r (matched || decide (lo ≤ r ∧ r ≤ hi)) (nrange + 1)
        else
          classLoop fuel chunk1 r (matched || decide (lo ≤ r ∧ r ≤ lo)) (nrange + 1)

/-- Go `path.matchChunk(chunk, s)`: `.ok (some rest)` for `(rest, true, nil)`,
`.ok none` for `("", false, nil)`, `.error e` for `("", false, e)`. The flag
`failed` is Go's: once set the chunk is only checked for well-formedness. -/
def matchChunkLoop : Nat → List Char → List Char → Bool → Except GoError (Option (List Char))
  | 0, _, _, _ => .error .errBadPattern
  | fuel + 1, chunk, s, failed0 =>
    match chunk with
    | [] => if failed0 then .ok none else .ok (some s)
    | c :: chunkT =>
      let failed := failed0 || s.isEmpty
      if c = '[' then
        let r := if failed then Char.ofNat 0 else s.headD (Char.ofNat 0)
        let s1 := if failed then s else s.tail
        let negated := chunkT.head? = some '^'
        let chunk1 := if negated then chunkT.tail else chunkT
        match classLoop (chunk1.length + 1) chunk1 r false 0 with
        | .error e => .error e
        | .ok (matched, chunk2) =>
          matchChunkLoop fuel chunk2 s1 (failed || (matched == decide negated))
      else if c = '?' then
        if failed then
          matchChunkLoop fuel chunkT s failed
        else
          matchChunkLoop fuel chunkT s.tail (decide (s.head? = some '/'))
      else
        let lit := if c = Char.ofNat 92 then chunkT else c :: chunkT
        match lit with
        | [] => .error .errBadPattern
        | l :: chunk1 =>
          if failed then
            matchChunkLoop fuel chunk1 s failed
          else
            matchChunkLoop fuel chunk1 s.tail (decide (s.head? ≠ some l))

/-- Go `path.matchChunk(chunk, s)`. -/
def matchChunk (chunk s : List Char) : Except GoError (Option (List Char)) :=
  matchChunkLoop (chunk.length + 1) chunk s false

/-- Go `path.Match(pattern, name)` for a pattern without `*`, which all three
patterns of `router` are: `scanChunk` then returns the whole pattern as one
chunk without a star, so the loop body runs once, and the name matches when
the chunk matches and leaves nothing of the name. Returns Go's pair
`(matched, err)`. -/
def pathMatch (pattern name : String) : Bool × Option GoError :=
  if pattern.data.isEmpty then
    (name.data.isEmpty, none)
  else
    match matchChunk pattern.data name.data with
    | .error e => (false, some e)
    | .ok (some t) => (t.isEmpty, none)
    | .ok none => (false, none)

/-! ## HTTP facade (`src/poke_api/main.go`) -/

/-- The value handed to `json.NewEncoder(w).Encode`: the party, one Pokemon, a
list of moves, the nil slice `Moves` returns next to an error, or the anonymous
struct with the single field `error` that
`renderError` builds from `err.Error()`. -/
inductive Data where
  | party (ps : List Pokemon)
  | pokemon (p : Pokemon)
  | moves (ms : List Move)
  | nilMoves
  | errorBody (err : GoError)
deriving DecidableEq

/-- One call on the `http.ResponseWriter`. -/
inductive Call where
  | headerSet (key value : String)
  | writeHeader (code : Nat)
  | encode (d : Data)
deriving DecidableEq

/-- The `http.ResponseWriter`, as the calls made on it so far. -/
abbrev ResponseWriter := List Call

/-- Go `http.StatusOK`. -/
def StatusOK : Nat := 200

/-- Go `http.StatusBadRequest`. -/
def StatusBadRequest : Nat := 400

/-- Go `http.StatusInternalServerError`. -/
def StatusInternalServerError : Nat := 500

/-- Go `func renderError(w http.ResponseWriter, err error, code int)`. -/
def renderError (w : ResponseWriter) (err : GoError) (code : Nat) : ResponseWriter :=
  w ++ [.headerSet "Content-Type" "application/json", .writeHeader code, .encode (.errorBody err)]

/-- Go `func renderResponse(w http.ResponseWriter, data interface{}, code int)`. -/
def renderResponse (w : ResponseWriter) (data : Data) (code : Nat) : ResponseWriter :=
  w ++ [.headerSet "Content-Type" "application/json", .writeHeader code, .encode data]

/-- How a handler ends: it returns, or it panics; either way with the calls
made on the writer until then. -/
inductive Outcome where
  | returned (w : ResponseWriter)
  | panicked (w : ResponseWriter) (p : Panic)
deriving DecidableEq

/-- Go `func getParty(w http.ResponseWriter, r *http.Request)`. -/
def getParty (w : ResponseWriter) (_urlPath : String) : Outcome :=
  .returned (renderResponse w (.party party) StatusOK)

/-- Go `func getPokemon(w http.ResponseWriter, r *http.Request)`; of the
request only `r.URL.Path` is read. Neither `renderError` is followed by a
`return`. -/
def getPokemon (w : ResponseWriter) (urlPath : String) : Outcome :=
  let p := stringsSplit urlPath '/'
  let w1 := if p.length < 3 then renderError w (.errorsNew "invalid path") StatusBadRequest else w
  match sliceIndex p 2 with
  | .error pn => .panicked w1 pn
  | .ok indexParam =>
    let (index, err) := Atoi indexParam
    let w2 := match err with
      | some e => renderError w1 e StatusBadRequest
      | none => w1
    let index1 := if index > (party.length : Int) then (party.length : Int) else index
    match sliceIndex party index1 with
    | .error pn => .panicked w2 pn
    | .ok poke => .returned (renderResponse w2 (.pokemon poke) StatusOK)

/-- Go `func getMove(w http.ResponseWriter, r *http.Request)`. -/
def getMove (w : ResponseWriter) (urlPath : String) : Outcome :=
  let p := stringsSplit urlPath '/'
  let w1 := if p.length < 4 then renderError w (.errorsNew "invalid path") StatusBadRequest else w
  match sliceIndex p 2 with
  | .error pn => .panicked w1 pn
  | .ok indexParam =>
    let (index, err) := Atoi indexParam
    let w2 := match err with
      | some e => renderError w1 e StatusBadRequest
      | none => w1
    let index1 := if index > (party.length : Int) then (party.length : Int) else index
    match sliceIndex party index1 with
    | .error pn => .panicked w2 pn
    | .ok poke =>
      match poke.Moves false with
      | .error e =>
        .returned (renderResponse (renderError w2 e StatusInternalServerError) .nilMoves StatusOK)
      | .ok moves => .returned (renderResponse w2 (.moves moves) StatusOK)

/-- Go `func router(w http.ResponseWriter, r *http.Request)`: the patterns are
matched against `path.Clean(r.URL.Path)`, the handlers get the request itself.
When no pattern matches the function falls off its end. -/
def router (w : ResponseWriter) (urlPath : String) : Outcome :=
  let p := pathClean urlPath
  let (ok1, err1) := pathMatch "/party" p
  let w1 := match err1 with
    | some e => renderError w e StatusInternalServerError
    | none => w
  if ok1 then
    getParty w1 urlPath
  else
    let (ok2, err2) := pathMatch "/party/[0-5]" p
    let w2 := match err2 with
      | some e => renderError w1 e StatusInternalServerError
      | none => w1
    if ok2 then
      getPokemon w2 urlPath
    else
      let (ok3, err3) := pathMatch "/party/[0-5]/move" p
      let w3 := match err3 with
        | some e => renderError w2 e StatusInternalServerError
        | none => w2
      if ok3 then
        getMove w3 urlPath
      else
        .returned w3

/-- The code of the first `WriteHeader` call on the writer, which is the status
net/http sends (later calls are ignored). `none` when `WriteHeader` was never
called: net/http then sends no status of the handler's choosing, but its own
default 200 once the handler returns. -/
def ResponseWriter.status : ResponseWriter → Option Nat
  | [] => none
  | .writeHeader code :: _ => some code
  | _ :: rest => ResponseWriter.status rest

/-- The values encoded into the response body, in order. -/
def ResponseWriter.bodies : ResponseWriter → List Data
  | [] => []
  | .encode d :: rest => d :: ResponseWriter.bodies rest
  | _ :: rest => ResponseWriter.bodies rest

/-- The writer an outcome ends with. -/
def Outcome.writer : Outcome → ResponseWriter
  | .returned w => w
  | .panicked w _ => w

/-! ## Demo runner (`src/pokemon/main.go`) -/

/-- One operand of `fmt.Println`: a string or an error value. -/
inductive Operand where
  | str (s : String)
  | err (e : GoError)
deriving DecidableEq

/-- How the process ends: `main` returns (exit status 0), `os.Exit code`, or a
panic. -/
inductive Ending where
  | returned
  | osExit (code : Nat)
  | panicked (p : Panic)
deriving DecidableEq

/-- What a run of the demo does: the `fmt.Println` calls in order, each with
its operands, and how it ends. -/
structure Run where
  printed : List (List Operand)
  ending : Ending
deriving DecidableEq

/-- Go `func main()` of `src/pokemon/main.go`. -/
def main : Run :=
  match sliceIndex party 0 with
  | .error pn => { printed := [], ending := .panicked pn }
  | .ok venusaur =>
    let out1 := [[Operand.str "ポケモン:", Operand.str venusaur.Name]]
    match venusaur.Moves false with
    | .error err => { printed := out1 ++ [[Operand.err err]], ending := .osExit 1 }
    | .ok moves =>
      match sliceIndex moves 0 with
      | .error pn => { printed := out1, ending := .panicked pn }
      | .ok m0 =>
        let out2 := out1 ++ [[Operand.str "通常わざ", Operand.str m0.Name]]
        match venusaur.Moves true with
        | .error err => { printed := out2 ++ [[Operand.err err]], ending := .osExit 1 }
        | .ok dynMoves =>
          match sliceIndex dynMoves 0 with
          | .error pn => { printed := out2, ending := .panicked pn }
          | .ok d0 =>
            { printed := out2 ++ [[Operand.str "ダイマックスわざ:", Operand.str d0.Name]],
              ending := .returned }

/-! ## Lemmas on the domain model -/

theorem dynamax_of_known (m : Move) (h : knownType m.Type_) : ∃ d, m.dynamax = .ok d := by
  unfold Move.dynamax
  rcases h with h | h | h <;> simp [h]

theorem dynamax_of_unknown (m : Move) (h : ¬ knownType m.Type_) :
    m.dynamax = .error (GoError.errorsNew "unknown type") := by
  unfold knownType at h
  unfold Move.dynamax
  push_neg at h
  simp [h.1, h.2.1, h.2.2]

theorem known_of_dynamax_ok (m d : Move) (h : m.dynamax = .ok d) : knownType m.Type_ := by
  by_contra hk
  rw [dynamax_of_unknown m hk] at h
  cases h

theorem dynamax_again (m d : Move) (h : m.dynamax = .ok d) :
    d.Type_ = m.Type_ ∧ d.dynamax = .ok d := by
  unfold Move.dynamax at h
  split_ifs at h with h1 h2 h3
  · cases h
    exact ⟨rfl, by simp [Move.dynamax, h1]⟩
  · cases h
    exact ⟨rfl, by simp [Move.dynamax, h2]⟩
  · cases h
    exact ⟨rfl, by simp [Move.dynamax, h3]⟩

theorem movesLoop_ok_iff (ms : List Move) (acc out : List Move) :
    Pokemon.movesLoop ms acc = .ok out ↔
      ∃ r, out = acc ++ r ∧ List.Forall₂ (fun m d => m.dynamax = .ok d) ms r := by
  induction ms generalizing acc with
  | nil =>
    simp only [Pokemon.movesLoop, Except.ok.injEq, List.forall₂_nil_left_iff]
    constructor
    · intro h
      exact ⟨[], by simp [h], rfl⟩
    · rintro ⟨r, h, rfl⟩
      simp [h]
  | cons m rest ih =>
    unfold Pokemon.movesLoop
    cases hm : m.dynamax with
    | error e =>
      constructor
      · intro h
        cases h
      · rintro ⟨r, _, hf⟩
        cases hf with
        | cons h _ => rw [hm] at h; cases h
    | ok d =>
      simp only [ih]
      constructor
      · rintro ⟨r, h, hf⟩
        exact ⟨d :: r, by simp [h], List.Forall₂.cons hm hf⟩
      · rintro ⟨r, h, hf⟩
        cases hf with
        | cons h1 h2 =>
          rw [hm] at h1
          cases h1
          exact ⟨_, by simp [h], h2⟩

theorem movesLoop_error_of_unknown (ms : List Move) (acc : List Move)
    (h : ∃ m ∈ ms, ¬ knownType m.Type_) :
    Pokemon.movesLoop ms acc = .error (GoError.errorsNew "unknown type") := by
  induction ms generalizing acc with
  | nil => simp at h
  | cons m rest ih =>
    unfold Pokemon.movesLoop
    by_cases hk : knownType m.Type_
    · obtain ⟨d, hd⟩ := dynamax_of_known m hk
      simp only [hd]
      apply ih
      obtain ⟨x, hx, hxk⟩ := h
      rcases List.mem_cons.mp hx with rfl | hx
      · exact absurd hk hxk
      · exact ⟨x, hx, hxk⟩
    · simp [dynamax_of_unknown m hk]

theorem movesLoop_ok_of_known (ms : List Move) (acc : List Move)
    (h : ∀ m ∈ ms, knownType m.Type_) :
    ∃ r, Pokemon.movesLoop ms acc = .ok (acc ++ r) ∧
      List.Forall₂ (fun m d => m.dynamax = .ok d) ms r := by
  induction ms generalizing acc with
  | nil => exact ⟨[], by simp [Pokemon.movesLoop], List.Forall₂.nil⟩
  | cons m rest ih =>
    obtain ⟨d, hd⟩ := dynamax_of_known m (h m (List.mem_cons_self _ _))
    obtain ⟨r, hr, hf⟩ := ih (acc ++ [d]) (fun x hx => h x (List.mem_cons_of_mem _ hx))
    refine ⟨d :: r, ?_, List.Forall₂.cons hd hf⟩
    unfold Pokemon.movesLoop
    simp only [hd, hr]
    simp

theorem forall₂_index {α β : Type} (R : α → β → Prop) (xs : List α) (ys : List β)
    (h : List.Forall₂ R xs ys) (k : Nat) (x : α) (hx : xs[k]? = some x) :
    ∃ y, ys[k]? = some y ∧ R x y := by
  induction h generalizing k with
  | nil => simp at hx
  | cons hxy _ ih =>
    cases k with
    | zero =>
      simp only [List.getElem?_cons_zero, Option.some.injEq] at hx
      subst hx
      exact ⟨_, by simp, hxy⟩
    | succ k =>
      simp only [List.getElem?_cons_succ] at hx ⊢
      exact ih k hx

theorem forall₂_dynamax_types (ms r : List Move)
    (hf : List.Forall₂ (fun m d => m.dynamax = .ok d) ms r) :
    r.map Move.Type_ = ms.map Move.Type_ := by
  induction hf with
  | nil => rfl
  | cons hmd _ ih => simp [ih, (dynamax_again _ _ hmd).1]

theorem forall₂_dynamax_again (ms r : List Move)
    (hf : List.Forall₂ (fun m d => m.dynamax = .ok d) ms r) :
    List.Forall₂ (fun m d => m.dynamax = .ok d) r r := by
  induction hf with
  | nil => exact List.Forall₂.nil
  | cons hmd _ ih => exact List.Forall₂.cons (dynamax_again _ _ hmd).2 ih

/-! ## The domain model: `dynamax` and `Moves` -/

/-- C5: `dynamax` succeeds exactly on the three known types; on success the
result keeps the type and carries the fixed name of that type, whatever the
name of the move was; on every other type it returns the error
"unknown type". -/
theorem dynamax_closed_table (m : Move) :
    ((∃ d, m.dynamax = .ok d) ↔ knownType m.Type_) ∧
    (m.Type_ = "くさ" → m.dynamax = .ok { Name := "ダイソウゲン", Type_ := m.Type_ }) ∧
    (m.Type_ = "ほのお" → m.dynamax = .ok { Name := "ダイバーン", Type_ := m.Type_ }) ∧
    (m.Type_ = "みず" → m.dynamax = .ok { Name := "ダイストリーム", Type_ := m.Type_ }) ∧
    (∀ d, m.dynamax = .ok d → d.Type_ = m.Type_) ∧
    (∀ n : Move, n.Type_ = m.Type_ → n.dynamax = m.dynamax) ∧
    (¬ knownType m.Type_ → m.dynamax = .error (GoError.errorsNew "unknown type")) := by
  refine ⟨⟨?_, dynamax_of_known m⟩, ?_, ?_, ?_, ?_, ?_, dynamax_of_unknown m⟩
  · rintro ⟨d, hd⟩
    exact known_of_dynamax_ok m d hd
  · intro h
    simp [Move.dynamax, h]
  · intro h
    simp [Move.dynamax, h]
  · intro h
    simp [Move.dynamax, h]
  · intro d hd
    exact (dynamax_again m d hd).1
  · intro n hn
    simp [Move.dynamax, hn]

/-- The table of C5 read at the move of the first party member. -/
theorem dynamax_closed_table_witness :
    Move.dynamax { Name := "つるのむち", Type_ := "くさ" } =
      .ok { Name := "ダイソウゲン", Type_ := "くさ" } :=
  (dynamax_closed_table { Name := "つるのむち", Type_ := "くさ" }).2.1 rfl

/-- C4: `Moves(true)` is all-or-nothing. It fails, with the error
"unknown type" and without a list, exactly when some move of the Pokemon has a
type outside the three known ones, wherever that move stands; otherwise it
succeeds with a list as long as `p.moves` whose k-th element is the `dynamax`
of the k-th move. -/
theorem Moves_dynamax_all_or_nothing (p : Pokemon) :
    (p.Moves true = .error (GoError.errorsNew "unknown type") ↔
      ∃ m ∈ p.moves, ¬ knownType m.Type_) ∧
    ((∃ e, p.Moves true = .error e) ↔ ∃ m ∈ p.moves, ¬ knownType m.Type_) ∧
    ((¬ ∃ m ∈ p.moves, ¬ knownType m.Type_) →
      ∃ r, p.Moves true = .ok r ∧ r.length = p.moves.length ∧
        ∀ (k : Nat) (m : Move), p.moves[k]? = some m →
          ∃ d, r[k]? = some d ∧ m.dynamax = .ok d) := by
  have hok : (¬ ∃ m ∈ p.moves, ¬ knownType m.Type_) →
      ∃ r, p.Moves true = .ok r ∧ r.length = p.moves.length ∧
        ∀ (k : Nat) (m : Move), p.moves[k]? = some m →
          ∃ d, r[k]? = some d ∧ m.dynamax = .ok d := by
    intro h
    push_neg at h
    obtain ⟨r, hr, hf⟩ := movesLoop_ok_of_known p.moves [] h
    refine ⟨r, ?_, hf.length_eq.symm, ?_⟩
    · simpa [Pokemon.Moves] using hr
    · intro k m hm
      exact forall₂_index _ _ _ hf k m hm
  have herr : (∃ m ∈ p.moves, ¬ knownType m.Type_) →
      p.Moves true = .error (GoError.errorsNew "unknown type") := by
    intro h
    simpa [Pokemon.Moves] using movesLoop_error_of_unknown p.moves [] h
  have hconv : ∀ e, p.Moves true = .error e → ∃ m ∈ p.moves, ¬ knownType m.Type_ := by
    intro e he
    by_contra hn
    obtain ⟨r, hr, _⟩ := hok hn
    rw [hr] at he
    cases he
  exact ⟨⟨hconv _, herr⟩, ⟨fun ⟨e, he⟩ => hconv e he, fun h => ⟨_, herr h⟩⟩, hok⟩

/-- C4 at a Pokemon whose second move has an unknown type: the first move
transforms, the whole call still fails. -/
theorem Moves_dynamax_all_or_nothing_witness :
    Pokemon.Moves
      { ID := 1, Name := "x",
        moves := [{ Name := "a", Type_ := "くさ" }, { Name := "b", Type_ := "でんき" }] } true =
      .error (GoError.errorsNew "unknown type") :=
  (Moves_dynamax_all_or_nothing
    { ID := 1, Name := "x",
      moves := [{ Name := "a", Type_ := "くさ" }, { Name := "b", Type_ := "でんき" }] }).1.2
    ⟨{ Name := "b", Type_ := "でんき" }, by simp, by decide⟩

/-- C6: `Moves(false)` always succeeds and returns `p.moves` itself, also when
the moves carry unknown types. -/
theorem Moves_plain_identity (p : Pokemon) : p.Moves false = .ok p.moves := by
  simp [Pokemon.Moves]

/-- C7: when `Moves(true)` succeeds with `r`, then `r` has at every position
the type of `p.moves` at that position, a Pokemon whose moves are `r` amplifies
to `r` again, and any result of `Moves(true)` on the same Pokemon is `r`. -/
theorem Moves_dynamax_idempotent (p : Pokemon) (r : List Move) (h : p.Moves true = .ok r) :
    r.map Move.Type_ = p.moves.map Move.Type_ ∧
    (∀ k : Nat, (r[k]?).map Move.Type_ = (p.moves[k]?).map Move.Type_) ∧
    (∀ q : Pokemon, q.moves = r → q.Moves true = .ok r) ∧
    (∀ r2, p.Moves true = .ok r2 → r2 = r) := by
  have hf : List.Forall₂ (fun m d => m.dynamax = .ok d) p.moves r := by
    simp only [Pokemon.Moves, if_true] at h
    obtain ⟨r1, h1, hf⟩ := (movesLoop_ok_iff p.moves [] r).mp h
    simp only [List.nil_append] at h1
    subst h1
    exact hf
  have htypes : r.map Move.Type_ = p.moves.map Move.Type_ := forall₂_dynamax_types _ _ hf
  have hagain : List.Forall₂ (fun m d => m.dynamax = .ok d) r r := forall₂_dynamax_again _ _ hf
  refine ⟨htypes, ?_, ?_, ?_⟩
  · intro k
    have := congrArg (fun l => l[k]?) htypes
    simpa [List.getElem?_map] using this
  · intro q hq
    simp only [Pokemon.Moves, if_true, hq]
    exact (movesLoop_ok_iff r [] r).mpr ⟨r, by simp, hagain⟩
  · intro r2 h2
    rw [h] at h2
    cases h2
    rfl

/-- C7 at the first party member. -/
theorem Moves_dynamax_idempotent_witness :
    Pokemon.Moves { ID := 3, Name := "フシギバナ", moves := [{ Name := "ダイソウゲン", Type_ := "くさ" }] }
      true = .ok [{ Name := "ダイソウゲン", Type_ := "くさ" }] :=
  (Moves_dynamax_idempotent
    { ID := 3, Name := "フシギバナ", moves := [{ Name := "つるのむち", Type_ := "くさ" }] }
    [{ Name := "ダイソウゲン", Type_ := "くさ" }] rfl).2.2.1 _ rfl

/-! ## The HTTP facade -/

/-- C8: for every position `i` of 0..2, `getMove` on `/party/i/move` makes one
rendering, with status 200 and the unamplified moves of the Pokemon at
position `i`, on whatever writer it is given; `Moves(false)` returns no error,
so the 500 branch is not taken. For `i = 0` the list is the single move
"つるのむち" of type "くさ". -/
theorem getMove_valid_index (i : Nat) (h : i ≤ 2) (w : ResponseWriter) :
    ∃ poke, party[i]? = some poke ∧
      poke.Moves false = .ok poke.moves ∧
      getMove w ("/party/" ++ toString i ++ "/move") =
        .returned (renderResponse w (.moves poke.moves) StatusOK) ∧
      (getMove [] ("/party/" ++ toString i ++ "/move")).writer.status = some 200 ∧
      (getMove [] ("/party/" ++ toString i ++ "/move")).writer.bodies = [.moves poke.moves] ∧
      (i = 0 → poke.moves = [{ Name := "つるのむち", Type_ := "くさ" }]) := by
  interval_cases i
  · exact ⟨_, rfl, rfl, rfl, rfl, rfl, fun _ => rfl⟩
  · exact ⟨_, rfl, rfl, rfl, rfl, rfl, fun h => absurd h (by decide)⟩
  · exact ⟨_, rfl, rfl, rfl, rfl, rfl, fun h => absurd h (by decide)⟩

/-- C8 at position 0, on a fresh writer. -/
theorem getMove_valid_index_witness :
    getMove [] "/party/0/move" =
      .returned (renderResponse [] (.moves [{ Name := "つるのむち", Type_ := "くさ" }]) StatusOK) := by
  obtain ⟨poke, hp, _, hg, _, _, hm⟩ := getMove_valid_index 0 (by decide) []
  rw [← hm rfl]
  exact hg

/-- C1, the code at every index the router admits: at 0, 1 and 2 `getPokemon`
renders the Pokemon at that position with status 200; at 3, 4 and 5 the clamp
`if index > len(party) { index = len(party) }` leaves index 3 and `party[3]`
panics (index out of range [3] with length 3) before anything is rendered,
through the router as well. -/
theorem getPokemon_admitted_indices :
    getPokemon [] "/party/0" = .returned (renderResponse []
      (.pokemon { ID := 3, Name := "フシギバナ", moves := [{ Name := "つるのむち", Type_ := "くさ" }] })
      StatusOK) ∧
    getPokemon [] "/party/1" = .returned (renderResponse []
      (.pokemon { ID := 6, Name := "リザードン", moves := [{ Name := "かえんほうしゃ", Type_ := "ほのお" }] })
      StatusOK) ∧
    getPokemon [] "/party/2" = .returned (renderResponse []
      (.pokemon { ID := 9, Name := "カメックス", moves := [{ Name := "みずでっぽう", Type_ := "みず" }] })
      StatusOK) ∧
    getPokemon [] "/party/3" = .panicked [] { index := 3, length := 3 } ∧
    getPokemon [] "/party/4" = .panicked [] { index := 3, length := 3 } ∧
    getPokemon [] "/party/5" = .panicked [] { index := 3, length := 3 } ∧
    router [] "/party/3" = .panicked [] { index := 3, length := 3 } := by
  decide

/-- C2, the code at `/party/x/../1`, a request path the router hands to
`getPokemon` (it cleans to `/party/1`) and whose index segment, the third piece
"x", is not an integer: `getPokemon` renders the 400 error of `strconv.Atoi`
and, with no `return` after it, goes on with index 0 and renders the Pokemon at
position 0: two renderings, the status line is 400 and the body holds the error
followed by the entity. The path `/party/abc` of the scenario never reaches the
handler: the router matches none of its patterns there and makes no call on
the writer. -/
theorem getPokemon_unparsable_index :
    pathClean "/party/x/../1" = "/party/1" ∧
    pathMatch "/party/[0-5]" (pathClean "/party/x/../1") = (true, none) ∧
    stringsSplit "/party/x/../1" '/' = ["", "party", "x", "..", "1"] ∧
    Atoi "x" = (0, some (numErrorInvalid "Atoi" "x")) ∧
    router [] "/party/x/../1" = getPokemon [] "/party/x/../1" ∧
    getPokemon [] "/party/x/../1" =
      .returned (renderResponse
        (renderError [] (numErrorInvalid "Atoi" "x") StatusBadRequest)
        (.pokemon { ID := 3, Name := "フシギバナ", moves := [{ Name := "つるのむち", Type_ := "くさ" }] })
        StatusOK) ∧
    (router [] "/party/x/../1").writer.status = some 400 ∧
    (router [] "/party/x/../1").writer.bodies =
      [.errorBody (numErrorInvalid "Atoi" "x"),
       .pokemon { ID := 3, Name := "フシギバナ", moves := [{ Name := "つるのむち", Type_ := "くさ" }] }] ∧
    router [] "/party/abc" = .returned [] := by
  decide

/-- C3, the code at `/nonexistent`: the cleaned path matches none of the three
patterns and `router` returns without a single call on the writer: no status
404, no body. -/
theorem router_unmatched_path :
    pathClean "/nonexistent" = "/nonexistent" ∧
    pathMatch "/party" "/nonexistent" = (false, none) ∧
    pathMatch "/party/[0-5]" "/nonexistent" = (false, none) ∧
    pathMatch "/party/[0-5]/move" "/nonexistent" = (false, none) ∧
    router [] "/nonexistent" = .returned [] ∧
    (router [] "/nonexistent").writer.status = none ∧
    (router [] "/nonexistent").writer.bodies = [] := by
  decide

/-- C9, the code at `//party/1`: the path cleans to `/party/1` and the router
picks `getPokemon`, but the handler splits the request path as it came, reads
the piece "party" as the index, renders the 400 error and then the Pokemon at
position 0; on `/party/1` itself the router renders the Pokemon at position 1
with status 200. The two responses differ. -/
theorem router_unclean_path :
    pathClean "//party/1" = "/party/1" ∧
    router [] "/party/1" = .returned (renderResponse []
      (.pokemon { ID := 6, Name := "リザードン", moves := [{ Name := "かえんほうしゃ", Type_ := "ほのお" }] })
      StatusOK) ∧
    router [] "//party/1" =
      .returned (renderResponse
        (renderError [] (numErrorInvalid "Atoi" "party") StatusBadRequest)
        (.pokemon { ID := 3, Name := "フシギバナ", moves := [{ Name := "つるのむち", Type_ := "くさ" }] })
        StatusOK) ∧
    (router [] "//party/1").writer.status = some 400 ∧
    router [] "//party/1" ≠ router [] (pathClean "//party/1") := by
  decide

/-! ## The demo runner -/

/-- C10: the demo `main` on the fixed party indexes in range and returns
normally; `Moves(false)` and `Moves(true)` of the Pokemon at position 0 succeed
with non-empty lists, and the three lines printed are, in this order, the name
"フシギバナ", the first plain move "つるのむち" and the first amplified move
"ダイソウゲン". -/
theorem main_prints_three_lines :
    main =
      { printed :=
          [[.str "ポケモン:", .str "フシギバナ"],
           [.str "通常わざ", .str "つるのむち"],
           [.str "ダイマックスわざ:", .str "ダイソウゲン"]],
        ending := .returned } ∧
    (∃ venusaur, sliceIndex party 0 = .ok venusaur ∧
      venusaur.Moves false = .ok [{ Name := "つるのむち", Type_ := "くさ" }] ∧
      venusaur.Moves true = .ok [{ Name := "ダイソウゲン", Type_ := "くさ" }]) := by
  exact ⟨by decide, _, rfl, rfl, rfl⟩

end GoPokemonApi
